import Mathlib

/-!
# Verification of the croncycle run loop

Shallow embedding of `src/croncycle/__main__.py` (function `main`, lines 16-100).

The program is a scheduling loop: parse a cron expression (line 56), then
repeatedly compute the next trigger time, sleep until it, run the configured
command, and decide whether to continue or terminate from the command's
outcome (lines 58-100).

The embedding splits `main` into:
* the stdio wiring of the child process (lines 83-85): `childStdin`,
  `childStdout`, `childStderr`;
* the outcome policy for one execution attempt (lines 80-100): `stepExec`;
* the loop over iterations, driven by an environment trace of wait/execute
  events (lines 58-100): `runLoop`;
* the schedule calculator (the `croniter` dependency, not part of this
  repository's sources): modelled from the spec as a five-field cron
  matcher `matches` and a next-trigger search `nextT`;
* the "next run is in the past" requery loop (lines 59-63): `requery`;
* startup parsing (line 56): `parseCron` and `program`.

Exit codes are modelled as `Int` (Python exit codes; `typer.Exit(code)`
makes `code` the process exit status).
-/

namespace Croncycle

/-- The option set of `main` (lines 16-46).  Field names follow the Python
parameter names: `stdin` is `--enable-stdin`, `stderr_to_stdout` is
`--stderr-to-stdout`, `no_output` is `--no-output`. -/
structure RunConfig where
  command : List String
  quiet : Bool := false
  exit_on_error : Bool := false
  ignored_codes : List Int := []
  stdin : Bool := false
  stderr_to_stdout : Bool := false
  no_output : Bool := false
  deriving Repr, DecidableEq

/-- A destination a child stream can be wired to in the `subprocess.run`
call (lines 81-86): the loop's own stdin/stdout/stderr, or `DEVNULL`. -/
inductive Dest where
  | loopStdin
  | loopStdout
  | loopStderr
  | devnull
  deriving Repr, DecidableEq

/-- Line 83: `stdin=sys.stdin if stdin else subprocess.DEVNULL`. -/
def childStdin (cfg : RunConfig) : Dest :=
  if cfg.stdin then Dest.loopStdin else Dest.devnull

/-- Line 84: `stdout=sys.stdout if not no_output else subprocess.DEVNULL`. -/
def childStdout (cfg : RunConfig) : Dest :=
  if !cfg.no_output then Dest.loopStdout else Dest.devnull

/-- Line 85: `stderr=sys.stdout if stderr_to_stdout else sys.stderr`.
Note the branch redirects the child's stderr to the loop's stdout stream
(`sys.stdout`), not to the child's own stdout destination. -/
def childStderr (cfg : RunConfig) : Dest :=
  if cfg.stderr_to_stdout then Dest.loopStdout else Dest.loopStderr

/-- Outcome of one execution attempt (lines 80-100): the command completed
with an exit code, a `KeyboardInterrupt` arrived while it ran, or
`subprocess.run` raised some other exception (spawn failure, e.g. the
executable does not exist). -/
inductive ExecEvent where
  | completed (code : Int)
  | interrupted
  | spawnFailure
  deriving Repr, DecidableEq

/-- What one pass of the execute phase does to the loop. -/
inductive StepResult where
  | cont
  | exit (code : Int)
  deriving Repr, DecidableEq

/-- The exceptions that can leave the `try` suite of lines 80-94:
`typer.Exit(code)` raised at line 92, `KeyboardInterrupt` delivered while
the command runs, or any other exception from `subprocess.run` (spawn
failure, e.g. `FileNotFoundError`). -/
inductive PyExc where
  | typerExit (code : Int)
  | keyboardInterrupt
  | other
  deriving Repr, DecidableEq

/-- Which of those exceptions `except Exception` (line 98) catches.
`typer.Exit` is `click.exceptions.Exit`, declared as
`class Exit(RuntimeError)`, so it *is* an `Exception` subclass;
`KeyboardInterrupt` derives from `BaseException` only. -/
def isExceptionSubclass : PyExc → Bool
  | PyExc.keyboardInterrupt => false
  | PyExc.typerExit _ => true
  | PyExc.other => true

/-- The `try` suite, lines 81-94: run the command;
`if result.returncode != 0: ... if exit_on_error and result.returncode
not in ignored_codes: raise typer.Exit(result.returncode)` (lines 88-92).
Returns the exception leaving the suite, if any. -/
def tryBody (cfg : RunConfig) : ExecEvent → Option PyExc
  | ExecEvent.completed code =>
    if code == 0 then none
    else if cfg.exit_on_error && !(cfg.ignored_codes.contains code) then
      some (PyExc.typerExit code)
    else none
  | ExecEvent.interrupted => some PyExc.keyboardInterrupt
  | ExecEvent.spawnFailure => some PyExc.other

/-- One pass of the execute phase, lines 80-100: the `try` suite's outcome
dispatched through the two `except` clauses.
`except KeyboardInterrupt` (line 95) raises `typer.Exit(0)` from inside
its handler, which the later clause of the same `try` statement cannot
catch, so it propagates and terminates the loop with status 0.
`except Exception` (line 98) catches every `Exception` subclass raised in
the suite — including the `typer.Exit` from line 92 — logs it and
`continue`s.  An exception caught by neither would propagate (a
`typer.Exit c` terminating the process with status `c`, anything else
with the interpreter's unhandled-exception status 1); no such case is
reachable here. -/
def stepExec (cfg : RunConfig) (ev : ExecEvent) : StepResult :=
  match tryBody cfg ev with
  | none => StepResult.cont
  | some PyExc.keyboardInterrupt => StepResult.exit 0
  | some (PyExc.typerExit c) =>
    if isExceptionSubclass (PyExc.typerExit c) then StepResult.cont
    else StepResult.exit c
  | some PyExc.other =>
    if isExceptionSubclass PyExc.other then StepResult.cont
    else StepResult.exit 1

/-- Environment event for one loop iteration: either a `KeyboardInterrupt`
arrives during the `time.sleep` of the wait phase (lines 71-75), or the
wait completes and the execute phase produces an `ExecEvent`. -/
inductive IterEvent where
  | waitInterrupt
  | run (ev : ExecEvent)
  deriving Repr, DecidableEq

/-- How many child processes the execute phase actually starts for an
event: a spawn failure means the command never started; a completed or
interrupted run started exactly one. -/
def startedCount : ExecEvent → Nat
  | ExecEvent.spawnFailure => 0
  | _ => 1

/-- The `while True` loop of lines 58-100, driven by a finite environment
trace.  Returns `(some c, n)` when the loop terminated via
`typer.Exit(c)` after starting `n` child processes, and `(none, n)` when
the trace was exhausted with the loop still running.
A `waitInterrupt` hits line 73-75: `typer.Exit(0)`, no command started
this cycle, remaining events never happen. -/
def runLoop (cfg : RunConfig) : List IterEvent → Option Int × Nat
  | [] => (none, 0)
  | IterEvent.waitInterrupt :: _ => (some 0, 0)
  | IterEvent.run ev :: rest =>
    match stepExec cfg ev with
    | StepResult.exit c => (some c, startedCount ev)
    | StepResult.cont =>
      ((runLoop cfg rest).1, startedCount ev + (runLoop cfg rest).2)

/-!
## Schedule calculator

The schedule calculator is the `croniter` library (line 56,
`iter = croniter(cron, start_time=datetime.now())`, and line 59,
`next_run = iter.get_next(datetime)`), which is a dependency, not part of
this repository's sources.  It is modelled from the spec: a five-field
cron pattern (minute, hour, day-of-month, month, day-of-week) describing a
recurring set of trigger instants, with `next` returning the earliest
matching timestamp strictly greater than the internal cursor.

Timestamps are minutes since the proleptic-Gregorian instant
0000-03-01 00:00 (the start of a 400-year calendar era, which is a
Wednesday, day-of-week 3 with Sunday = 0).
-/

/-- Modelled from the spec: one parsed field of a five-field cron pattern.
`values` is the set of accepted values; `isStar` records whether the field
was written as a bare `*` (needed for the standard day-of-month /
day-of-week combination rule). -/
structure CronField where
  isStar : Bool
  values : List Nat
  deriving Repr, DecidableEq

/-- Modelled from the spec: a parsed five-field cron pattern
(minute, hour, day-of-month, month, day-of-week). -/
structure CronExpr where
  minute : CronField
  hour : CronField
  dom : CronField
  month : CronField
  dow : CronField
  deriving Repr, DecidableEq

/-- Civil (month, day-of-month) of a day-of-era, `doe ∈ [0, 146096]`,
counted from March 1 of the first year of a 400-year Gregorian era
(the standard era-based civil-from-days computation). -/
def civilOfDoe (doe : Nat) : Nat × Nat :=
  let yoe := (doe - doe / 1460 + doe / 36524 - doe / 146096) / 365
  let doy := doe - (365 * yoe + yoe / 4 - yoe / 100)
  let mp := (5 * doy + 2) / 153
  (if mp < 10 then mp + 3 else mp - 9, doy - (153 * mp + 2) / 5 + 1)

/-- A cron field accepts a value iff it is among the parsed values. -/
def matchesField (f : CronField) (v : Nat) : Bool :=
  f.values.contains v

/-- Standard cron day rule: when both day-of-month and day-of-week are
restricted (neither written `*`), the day matches if either field does;
otherwise both fields must accept (a `*` field accepts every in-range
value anyway). -/
def matchesDay (c : CronExpr) (dom dow : Nat) : Bool :=
  if !c.dom.isStar && !c.dow.isStar then
    matchesField c.dom dom || matchesField c.dow dow
  else
    matchesField c.dom dom && matchesField c.dow dow

/-- Modelled from the spec: the trigger instants of a cron pattern.
A timestamp `t` (minutes since the era epoch) matches iff its minute,
hour, month and day components are accepted.  `t / 1440 % 146097` is the
day-of-era and `(t / 1440 + 3) % 7` the day-of-week (epoch is a
Wednesday). -/
def matchesAt (c : CronExpr) (t : Nat) : Bool :=
  matchesField c.minute (t % 60) &&
  matchesField c.hour (t / 60 % 24) &&
  matchesField c.month (civilOfDoe (t / 1440 % 146097)).1 &&
  matchesDay c (civilOfDoe (t / 1440 % 146097)).2 ((t / 1440 + 3) % 7)

/-- Minutes in one 400-year Gregorian era (146097 days): the trigger set
of any cron pattern is periodic with this period. -/
def period : Nat := 146097 * 1440

/-- Linear search for the first matching timestamp at or after `start`,
with explicit fuel. -/
def searchFrom (c : CronExpr) (start : Nat) : Nat → Option Nat
  | 0 => none
  | fuel + 1 =>
    if matchesAt c start then some start else searchFrom c (start + 1) fuel

/-- Modelled from the spec: `next(cronExpr, after)` — the earliest
timestamp matching `c` that is strictly greater than `t`.  One era of
fuel suffices because the trigger set is `period`-periodic. -/
def nextT (c : CronExpr) (t : Nat) : Option Nat :=
  searchFrom c (t + 1) period

/-- The sequence of cursor values produced by repeatedly calling the
calculator's `next` on its own cursor, starting from `t0`
(`iter.get_next(datetime)` updates `croniter`'s internal cursor to the
returned instant). -/
def cronSeq (c : CronExpr) (t0 : Nat) : Nat → Option Nat
  | 0 => some t0
  | n + 1 => (cronSeq c t0 n).bind (nextT c)

/-- The "next run is in the past" requery loop, lines 59-63:
`next_run = iter.get_next(datetime); if next_run <= datetime.now():
continue`.  `now` is the wall clock (held fixed), `cursor` the
calculator's cursor; fuel makes the iteration explicit. -/
def requery (c : CronExpr) (now cursor : Nat) : Nat → Option Nat
  | 0 => none
  | fuel + 1 =>
    match nextT c cursor with
    | none => none
    | some nextRun =>
      if nextRun ≤ now then requery c now nextRun fuel else some nextRun

/-!
## Parsing

Modelled from the spec: standard 5-field minute/hour/day/month/weekday
syntax; parsing fails on wrong field count, out-of-range values or
malformed syntax.  Implemented over `List Char` so that concrete
expressions evaluate by `decide`/`rfl`.
-/

/-- Split a character list on a separator character (keeping empty
segments, so malformed inputs such as `1,,2` are detected). -/
def splitOnAux (sep : Char) : List Char → List Char → List (List Char)
  | [], acc => [acc.reverse]
  | ch :: cs, acc =>
    if ch == sep then acc.reverse :: splitOnAux sep cs []
    else splitOnAux sep cs (ch :: acc)

def splitOnChar (sep : Char) (s : List Char) : List (List Char) :=
  splitOnAux sep s []

/-- Split on runs of blanks, dropping empty segments (field splitting). -/
def splitWsAux : List Char → List Char → List (List Char)
  | [], [] => []
  | [], acc => [acc.reverse]
  | ch :: cs, acc =>
    if ch == ' ' || ch == '\t' then
      match acc with
      | [] => splitWsAux cs []
      | _ => acc.reverse :: splitWsAux cs []
    else splitWsAux cs (ch :: acc)

def splitWs (s : List Char) : List (List Char) :=
  splitWsAux s []

/-- Parse a non-empty all-digit segment as a number. -/
def digitsToNat : List Char → Option Nat
  | [] => none
  | cs =>
    cs.foldlM
      (fun n ch =>
        if ch.isDigit then some (n * 10 + (ch.toNat - 48)) else none)
      0

/-- `lo, lo+step, …` up to `hi`. -/
def stepped (lo hi step : Nat) : List Nat :=
  List.range' lo ((hi - lo) / step + 1) step

/-- Parse the base of a cron item within `[lo, hi]`: `*`, a single value
`a`, or a range `a-b`.  Returns (was a bare `*`, low, high). -/
def parseBase (lo hi : Nat) (base : List Char) : Option (Bool × Nat × Nat) :=
  if base == ['*'] then some (true, lo, hi)
  else
    match splitOnChar '-' base with
    | [a] => do
      let va ← digitsToNat a
      if lo ≤ va && va ≤ hi then some (false, va, va) else none
    | [a, b] => do
      let va ← digitsToNat a
      let vb ← digitsToNat b
      if lo ≤ va && va ≤ vb && vb ≤ hi then some (false, va, vb) else none
    | _ => none

/-- Parse one comma-separated item: a base with an optional `/step`.
Returns (item is a bare `*`, accepted values). -/
def parseItem (lo hi : Nat) (item : List Char) : Option (Bool × List Nat) :=
  match splitOnChar '/' item with
  | [base] => do
    let (star, a, b) ← parseBase lo hi base
    some (star, stepped a b 1)
  | [base, stepCs] => do
    let s ← digitsToNat stepCs
    if s == 0 then none
    else do
      let (_, a, b) ← parseBase lo hi base
      some (false, stepped a b s)
  | _ => none

/-- Parse one cron field (comma-separated items) with bounds `[lo, hi]`.
The field counts as `*` iff it is literally the single character `*`. -/
def parseField (lo hi : Nat) (cs : List Char) : Option CronField := do
  let parsed ← (splitOnChar ',' cs).mapM (parseItem lo hi)
  some { isStar := cs == ['*'], values := (parsed.map Prod.snd).flatten }

def ofOpt {α : Type} (o : Option α) (msg : String) : Except String α :=
  match o with
  | none => Except.error msg
  | some a => Except.ok a

/-- Modelled from the spec: parse a five-field cron expression.  Field
bounds: minute 0-59, hour 0-23, day-of-month 1-31, month 1-12,
day-of-week 0-7 with 7 meaning Sunday (normalised to 0).  Fails on wrong
field count, out-of-range values, or malformed syntax. -/
def parseCron (s : String) : Except String CronExpr :=
  match splitWs s.data with
  | [mi, h, d, mo, w] => do
    let fMi ← ofOpt (parseField 0 59 mi) "invalid minute field"
    let fH ← ofOpt (parseField 0 23 h) "invalid hour field"
    let fD ← ofOpt (parseField 1 31 d) "invalid day-of-month field"
    let fMo ← ofOpt (parseField 1 12 mo) "invalid month field"
    let fW ← ofOpt (parseField 0 7 w) "invalid day-of-week field"
    Except.ok
      { minute := fMi, hour := fH, dom := fD, month := fMo,
        dow := { fW with values := fW.values.map (· % 7) } }
  | _ => Except.error "expected exactly 5 fields"

/-- A field written `*`: every value in `[lo, hi]` is accepted. -/
def starField (lo hi : Nat) : CronField :=
  ⟨true, stepped lo hi 1⟩

/-- The expression `* * * * *` (every minute), for concrete evaluation. -/
def everyMinute : CronExpr :=
  ⟨starField 0 59, starField 0 23, starField 1 31, starField 1 12,
    starField 0 6⟩

/-- The whole program: line 56 constructs the calculator
(`croniter(cron, start_time=datetime.now())`), whose constructor raises on
an invalid expression; nothing catches that exception, so the process
terminates with the interpreter's unhandled-exception status (non-zero,
modelled as 1) before the loop is entered and before any command is
started.  On a valid expression the loop runs (`runLoop`). -/
def program (cron : String) (cfg : RunConfig) (events : List IterEvent) :
    Option Int × Nat :=
  match parseCron cron with
  | Except.error _ => (some 1, 0)
  | Except.ok _ => runLoop cfg events

/-!
## Run-loop lemmas
-/

/-- Unfolding: an iteration whose execute phase continues. -/
theorem runLoop_cons_cont (cfg : RunConfig) (ev : ExecEvent)
    (rest : List IterEvent) (h : stepExec cfg ev = StepResult.cont) :
    runLoop cfg (IterEvent.run ev :: rest) =
      ((runLoop cfg rest).1, startedCount ev + (runLoop cfg rest).2) := by
  simp [runLoop, h]

/-- Unfolding: an iteration whose execute phase terminates the loop. -/
theorem runLoop_cons_exit (cfg : RunConfig) (ev : ExecEvent)
    (rest : List IterEvent) (c : Int)
    (h : stepExec cfg ev = StepResult.exit c) :
    runLoop cfg (IterEvent.run ev :: rest) = (some c, startedCount ev) := by
  simp [runLoop, h]

/-- Extending a trace on which the loop is still running: the prefix only
contributes its count of started commands. -/
theorem runLoop_append (cfg : RunConfig) (evs l : List IterEvent) (k : Nat)
    (h : runLoop cfg evs = (none, k)) :
    runLoop cfg (evs ++ l) = ((runLoop cfg l).1, k + (runLoop cfg l).2) := by
  induction evs generalizing k with
  | nil =>
    simp only [runLoop, Prod.mk.injEq] at h
    simp [← h.2]
  | cons e rest ih =>
    cases e with
    | waitInterrupt => simp [runLoop] at h
    | run ev =>
      rw [List.cons_append]
      cases hst : stepExec cfg ev with
      | exit c => rw [runLoop_cons_exit cfg ev rest c hst] at h; simp at h
      | cont =>
        rw [runLoop_cons_cont cfg ev rest hst] at h
        rw [runLoop_cons_cont cfg ev (rest ++ l) hst]
        simp only [Prod.mk.injEq] at h
        have hrest : runLoop cfg rest = (none, (runLoop cfg rest).2) := by
          rw [← h.1]
        rw [ih ((runLoop cfg rest).2) hrest]
        simp only [Prod.mk.injEq, true_and]
        omega

/-!
## Claims about the run loop
-/

/-- C1: the claim is the code's own intent (the flag is `--exit-on-error`,
help text "Exit on error"), but the code violates it: the
`raise typer.Exit(result.returncode)` at line 92 happens inside the `try`
suite, and `typer.Exit` — `click.exceptions.Exit`, a `RuntimeError` — is
caught by the catch-all `except Exception` at line 98, which logs it and
`continue`s.  At the failing input (`exitOnError = true`,
`ignoredCodes = []`, command exits 2): line 92 does raise
`typer.Exit(2)`, yet the execute phase continues, and the loop does not
terminate (result `(none, 1)`, not exit status 2). -/
theorem exit_on_error_defeated_by_catch_all :
    tryBody { command := ["job"], exit_on_error := true, ignored_codes := [] }
        (ExecEvent.completed 2) = some (PyExc.typerExit 2) ∧
    stepExec { command := ["job"], exit_on_error := true, ignored_codes := [] }
        (ExecEvent.completed 2) = StepResult.cont ∧
    runLoop { command := ["job"], exit_on_error := true, ignored_codes := [] }
        [IterEvent.run (ExecEvent.completed 2)] = (none, 1) := by
  decide

/-- C3: a spawn failure never terminates the loop, whatever the
configuration (in particular with `exit_on_error = true`): the exception
from `subprocess.run` is caught at line 98, logged, and the loop
continues to the next iteration. -/
theorem spawn_failure_never_terminates (cfg : RunConfig)
    (evs rest : List IterEvent) (k : Nat)
    (hRun : runLoop cfg evs = (none, k)) :
    stepExec cfg ExecEvent.spawnFailure = StepResult.cont ∧
    (runLoop cfg (evs ++ IterEvent.run ExecEvent.spawnFailure :: rest)).1 =
      (runLoop cfg rest).1 := by
  refine ⟨rfl, ?_⟩
  rw [runLoop_append cfg evs _ k hRun,
    runLoop_cons_cont cfg ExecEvent.spawnFailure rest rfl]

theorem spawn_failure_never_terminates_witness :
    stepExec { command := ["nonexistent"], exit_on_error := true }
        ExecEvent.spawnFailure = StepResult.cont ∧
    (runLoop { command := ["nonexistent"], exit_on_error := true }
        [IterEvent.run ExecEvent.spawnFailure]).1 =
      (runLoop { command := ["nonexistent"], exit_on_error := true } []).1 :=
  spawn_failure_never_terminates
    { command := ["nonexistent"], exit_on_error := true } [] [] 0 rfl

/-- C5: when `exit_on_error` is false, or the exit code is in
`ignored_codes`, non-zero exits never terminate the loop: a trace of any
number of completed commands with such codes leaves the loop running,
with every one of those commands having been started. -/
theorem nonfatal_exit_codes_never_terminate (cfg : RunConfig)
    (evs : List IterEvent)
    (h : ∀ e ∈ evs, ∃ code : Int,
        e = IterEvent.run (ExecEvent.completed code) ∧
        (cfg.exit_on_error = false ∨ code ∈ cfg.ignored_codes)) :
    runLoop cfg evs = (none, evs.length) := by
  induction evs with
  | nil => rfl
  | cons e rest ih =>
    obtain ⟨code, rfl, hcode⟩ := h e (List.mem_cons_self e rest)
    have hrest := ih fun e' he' => h e' (List.mem_cons_of_mem _ he')
    have hstep : stepExec cfg (ExecEvent.completed code) = StepResult.cont := by
      unfold stepExec tryBody
      by_cases h0 : (code == 0) = true
      · simp [h0]
      · rcases hcode with hE | hI
        · simp [h0, hE]
        · simp [h0, List.elem_eq_mem, hI]
    rw [runLoop_cons_cont cfg _ rest hstep, hrest]
    simp [startedCount]
    omega

theorem nonfatal_exit_codes_never_terminate_witness :
    runLoop { command := ["job"], exit_on_error := false }
        (List.replicate 3 (IterEvent.run (ExecEvent.completed 1))) =
      (none, 3) := by
  have := nonfatal_exit_codes_never_terminate
    { command := ["job"], exit_on_error := false }
    (List.replicate 3 (IterEvent.run (ExecEvent.completed 1)))
    (by
      intro e he
      simp only [List.mem_replicate] at he
      exact ⟨1, he.2, Or.inl rfl⟩)
  simpa using this

/-- C6: an interrupt during the wait phase (line 73) terminates the loop
with status 0 and starts no command for that cycle; an interrupt during
command execution (line 95) terminates with status 0 after the one
in-flight command; in both cases no further iteration is attempted
(`rest` is arbitrary and never reached). -/
theorem interrupt_exits_cleanly (cfg : RunConfig)
    (evs rest : List IterEvent) (k : Nat)
    (hRun : runLoop cfg evs = (none, k)) :
    runLoop cfg (evs ++ IterEvent.waitInterrupt :: rest) = (some 0, k) ∧
    runLoop cfg (evs ++ IterEvent.run ExecEvent.interrupted :: rest) =
      (some 0, k + 1) := by
  constructor
  · rw [runLoop_append cfg evs _ k hRun]
    simp [runLoop]
  · rw [runLoop_append cfg evs _ k hRun,
      runLoop_cons_exit cfg ExecEvent.interrupted rest 0 rfl]
    simp [startedCount]

theorem interrupt_exits_cleanly_witness :
    runLoop { command := ["job"] }
        ([IterEvent.run (ExecEvent.completed 0)] ++
          IterEvent.waitInterrupt :: [IterEvent.run (ExecEvent.completed 0)]) =
      (some 0, 1) ∧
    runLoop { command := ["job"] }
        ([IterEvent.run (ExecEvent.completed 0)] ++
          IterEvent.run ExecEvent.interrupted ::
            [IterEvent.run (ExecEvent.completed 0)]) =
      (some 0, 1 + 1) :=
  interrupt_exits_cleanly { command := ["job"] }
    [IterEvent.run (ExecEvent.completed 0)]
    [IterEvent.run (ExecEvent.completed 0)] 1 rfl

/-- C10: a command completing with exit code 0 never terminates the loop,
whatever `exit_on_error` and `ignored_codes` are: line 88's
`if result.returncode != 0` is not taken, nothing is raised, and the loop
proceeds to its next iteration. -/
theorem zero_exit_never_terminates (cfg : RunConfig)
    (evs rest : List IterEvent) (k : Nat)
    (hRun : runLoop cfg evs = (none, k)) :
    stepExec cfg (ExecEvent.completed 0) = StepResult.cont ∧
    (runLoop cfg
        (evs ++ IterEvent.run (ExecEvent.completed 0) :: rest)).1 =
      (runLoop cfg rest).1 := by
  refine ⟨rfl, ?_⟩
  rw [runLoop_append cfg evs _ k hRun,
    runLoop_cons_cont cfg (ExecEvent.completed 0) rest rfl]

theorem zero_exit_never_terminates_witness :
    stepExec { command := ["job"], exit_on_error := true, ignored_codes := [] }
        (ExecEvent.completed 0) = StepResult.cont ∧
    (runLoop { command := ["job"], exit_on_error := true, ignored_codes := [] }
        [IterEvent.run (ExecEvent.completed 0)]).1 =
      (runLoop { command := ["job"], exit_on_error := true, ignored_codes := [] }
        []).1 :=
  zero_exit_never_terminates
    { command := ["job"], exit_on_error := true, ignored_codes := [] }
    [] [] 0 rfl

/-!
## Claims about the stdio wiring
-/

/-- C8, counterexample: the claim says that with `stderr_to_stdout` set
the child's stderr goes to the same destination as its stdout "also when
`no_output` is set and stdout is discarded".  At the concrete
configuration with both flags set this is false: stdout is `DEVNULL`
while stderr is the loop's stdout (line 85 writes `sys.stdout`, not
`subprocess.STDOUT`). -/
theorem stderr_merge_counterexample :
    ({ command := ["job"], stderr_to_stdout := true, no_output := true
        : RunConfig }).stderr_to_stdout = true ∧
    childStderr
        { command := ["job"], stderr_to_stdout := true, no_output := true } ≠
      childStdout
        { command := ["job"], stderr_to_stdout := true, no_output := true } := by
  decide

/-- C8, amended: with `stderr_to_stdout` set, the child's stderr is
redirected to the loop's standard output; that coincides with the child's
stdout destination whenever `no_output` is not set. -/
theorem stderr_merge_goes_to_loop_stdout (cfg : RunConfig)
    (h : cfg.stderr_to_stdout = true) :
    childStderr cfg = Dest.loopStdout ∧
    (cfg.no_output = false → childStderr cfg = childStdout cfg) := by
  refine ⟨by simp [childStderr, h], fun h2 => ?_⟩
  simp [childStderr, childStdout, h, h2]

theorem stderr_merge_goes_to_loop_stdout_witness :
    childStderr { command := ["job"], stderr_to_stdout := true } =
      Dest.loopStdout ∧
    childStderr { command := ["job"], stderr_to_stdout := true } =
      childStdout { command := ["job"], stderr_to_stdout := true } :=
  ⟨(stderr_merge_goes_to_loop_stdout
      { command := ["job"], stderr_to_stdout := true } rfl).1,
   (stderr_merge_goes_to_loop_stdout
      { command := ["job"], stderr_to_stdout := true } rfl).2 rfl⟩

/-- C9: with `stdin = false` (the default) the child's standard input is
`DEVNULL` — closed, a reading command sees immediate EOF — and with
`stdin = true` it is the loop's own standard input (line 83). -/
theorem stdin_wiring_respects_enable_stdin (cfg : RunConfig) :
    (cfg.stdin = false → childStdin cfg = Dest.devnull) ∧
    (cfg.stdin = true → childStdin cfg = Dest.loopStdin) := by
  constructor <;> intro h <;> simp [childStdin, h]

theorem stdin_wiring_respects_enable_stdin_witness :
    childStdin { command := ["job"] } = Dest.devnull ∧
    childStdin { command := ["job"], stdin := true } = Dest.loopStdin :=
  ⟨(stdin_wiring_respects_enable_stdin { command := ["job"] }).1 rfl,
   (stdin_wiring_respects_enable_stdin
      { command := ["job"], stdin := true }).2 rfl⟩

/-!
## Schedule-calculator lemmas

The trigger set of a cron pattern is periodic with one 400-year era
(146097 days, an exact number of weeks), so a satisfiable pattern has a
match in every window of `period` minutes, and a bounded search with
`period` fuel is complete.
-/

theorem mod60_add_period (t : Nat) : (t + period) % 60 = t % 60 := by
  simp only [period]
  omega

theorem div60_mod24_add_period (t : Nat) :
    (t + period) / 60 % 24 = t / 60 % 24 := by
  simp only [period]
  omega

theorem div1440_add_period (t : Nat) :
    (t + period) / 1440 = t / 1440 + 146097 := by
  simp only [period]
  omega

/-- Adding one era preserves every component the matcher looks at. -/
theorem matchesAt_add_period (c : CronExpr) (t : Nat) :
    matchesAt c (t + period) = matchesAt c t := by
  unfold matchesAt
  rw [mod60_add_period, div60_mod24_add_period, div1440_add_period,
    Nat.add_mod_right]
  have h7 : (t / 1440 + 146097 + 3) % 7 = (t / 1440 + 3) % 7 := by omega
  rw [h7]

theorem matchesAt_add_mul_period (c : CronExpr) (t k : Nat) :
    matchesAt c (t + k * period) = matchesAt c t := by
  induction k with
  | zero => simp
  | succ k ih =>
    have harith : t + (k + 1) * period = t + k * period + period := by ring
    rw [harith, matchesAt_add_period, ih]

/-- A satisfiable pattern has a trigger in every half-open window
`(t, t + period]`. -/
theorem exists_match_in_window (c : CronExpr) (s t : Nat)
    (hs : matchesAt c s = true) :
    ∃ u, t < u ∧ u ≤ t + period ∧ matchesAt c u = true := by
  have hP : period = 210379680 := by norm_num [period]
  have hmr : matchesAt c (s % period) = true := by
    have h1 : s % period + s / period * period = s := Nat.mod_add_div' s period
    have h2 := matchesAt_add_mul_period c (s % period) (s / period)
    rw [h1] at h2
    exact h2 ▸ hs
  rw [hP] at hmr ⊢
  have htd := Nat.mod_add_div' t 210379680
  by_cases hc : t % 210379680 < s % 210379680
  · refine ⟨s % 210379680 + t / 210379680 * 210379680, by omega, by omega, ?_⟩
    have := matchesAt_add_mul_period c (s % 210379680) (t / 210379680)
    rw [hP] at this
    rw [this]
    exact hmr
  · refine ⟨s % 210379680 + (t / 210379680 + 1) * 210379680,
      by omega, by omega, ?_⟩
    have := matchesAt_add_mul_period c (s % 210379680) (t / 210379680 + 1)
    rw [hP] at this
    rw [this]
    exact hmr

/-- Soundness of the bounded search: a hit is a match, lies in the
searched window, and is the least match from `start` on. -/
theorem searchFrom_eq_some (c : CronExpr) (fuel : Nat) :
    ∀ start r, searchFrom c start fuel = some r →
      matchesAt c r = true ∧ start ≤ r ∧ r < start + fuel ∧
        ∀ u, start ≤ u → u < r → matchesAt c u = false := by
  induction fuel with
  | zero => intro start r h; simp [searchFrom] at h
  | succ fuel ih =>
    intro start r h
    unfold searchFrom at h
    by_cases hm : matchesAt c start = true
    · rw [if_pos hm] at h
      injection h with h
      subst h
      exact ⟨hm, Nat.le_refl _, by omega, fun u h1 h2 => absurd h2 (by omega)⟩
    · rw [if_neg hm] at h
      obtain ⟨h1, h2, h3, h4⟩ := ih (start + 1) r h
      refine ⟨h1, by omega, by omega, fun u hu1 hu2 => ?_⟩
      by_cases he : u = start
      · subst he
        exact Bool.eq_false_iff.mpr hm
      · exact h4 u (by omega) hu2

/-- Completeness of the bounded search: a match inside the fuel window
guarantees a hit. -/
theorem searchFrom_isSome (c : CronExpr) (fuel : Nat) :
    ∀ start u, start ≤ u → u < start + fuel → matchesAt c u = true →
      ∃ r, searchFrom c start fuel = some r := by
  induction fuel with
  | zero => intro start u h1 h2 h3; omega
  | succ fuel ih =>
    intro start u h1 h2 h3
    unfold searchFrom
    by_cases hm : matchesAt c start = true
    · exact ⟨start, by rw [if_pos hm]⟩
    · rw [if_neg hm]
      have hne : u ≠ start := fun he => hm (he ▸ h3)
      exact ih (start + 1) u (by omega) (by omega) h3

/-- For a satisfiable pattern, `nextT` returns the earliest trigger
strictly after the cursor. -/
theorem nextT_spec (c : CronExpr) (t s : Nat)
    (hs : matchesAt c s = true) :
    ∃ r, nextT c t = some r ∧ t < r ∧ matchesAt c r = true ∧
      ∀ u, t < u → u < r → matchesAt c u = false := by
  obtain ⟨u, hu1, hu2, hu3⟩ := exists_match_in_window c s t hs
  obtain ⟨r, hr⟩ :=
    searchFrom_isSome c period (t + 1) u (by omega) (by omega) hu3
  obtain ⟨h1, h2, h3, h4⟩ := searchFrom_eq_some c period (t + 1) r hr
  exact ⟨r, hr, by omega, h1, fun v hv1 hv2 => h4 v (by omega) hv2⟩

/-- Unfolding: one pass of the requery loop when `get_next` succeeds. -/
theorem requery_step (c : CronExpr) (now cursor fuel r : Nat)
    (hr : nextT c cursor = some r) :
    requery c now cursor (fuel + 1) =
      if r ≤ now then requery c now r fuel else some r := by
  simp only [requery, hr]

theorem requery_succeeds (c : CronExpr) (s : Nat)
    (hs : matchesAt c s = true) (now : Nat) :
    ∀ fuel cursor, 0 < fuel → now < cursor + fuel →
      ∃ nr, requery c now cursor fuel = some nr ∧ now < nr := by
  intro fuel
  induction fuel with
  | zero => intro cursor h0 _; omega
  | succ fuel ih =>
    intro cursor _ hlt
    obtain ⟨r, hr, hcr, -, -⟩ := nextT_spec c cursor s hs
    rw [requery_step c now cursor fuel r hr]
    by_cases hle : r ≤ now
    · rw [if_pos hle]
      exact ih r (by omega) (by omega)
    · rw [if_neg hle]
      exact ⟨r, rfl, by omega⟩

/-!
## Claims about the schedule calculator and startup
-/

/-- C2: for a satisfiable cron pattern (one with any trigger at all),
`nextT` at any cursor `t` returns a trigger `r` with `t < r`, `r`
matching, and nothing between `t` and `r` matching (earliest); and the
cursor sequence obtained by feeding each result back into the
calculator (`cronSeq`) is strictly increasing at every step. -/
theorem next_trigger_strictly_advances (c : CronExpr) (t s : Nat)
    (hs : matchesAt c s = true) :
    (∃ r, nextT c t = some r ∧ t < r ∧ matchesAt c r = true ∧
        ∀ u, t < u → u < r → matchesAt c u = false) ∧
    ∀ n, ∃ a b, cronSeq c t n = some a ∧ cronSeq c t (n + 1) = some b ∧
        a < b := by
  refine ⟨nextT_spec c t s hs, ?_⟩
  intro n
  induction n with
  | zero =>
    obtain ⟨r, hr, hlt, -, -⟩ := nextT_spec c t s hs
    exact ⟨t, r, rfl, by simp [cronSeq, hr], hlt⟩
  | succ n ih =>
    obtain ⟨a, b, ha, hb, hab⟩ := ih
    obtain ⟨r, hr, hlt, -, -⟩ := nextT_spec c b s hs
    refine ⟨b, r, hb, ?_, hlt⟩
    show (cronSeq c t (n + 1)).bind (nextT c) = some r
    rw [hb]
    simpa using hr

theorem next_trigger_strictly_advances_witness :
    (∃ r, nextT everyMinute 0 = some r ∧ 0 < r ∧
        matchesAt everyMinute r = true ∧
        ∀ u, 0 < u → u < r → matchesAt everyMinute u = false) ∧
    ∀ n, ∃ a b, cronSeq everyMinute 0 n = some a ∧
        cronSeq everyMinute 0 (n + 1) = some b ∧ a < b :=
  next_trigger_strictly_advances everyMinute 0 0 (by decide)

/-- C7: the inner requery loop of lines 59-63 terminates.  Each `get_next`
strictly advances the calculator's cursor (first conjunct), so with
`now + 1` iterations of fuel the loop is guaranteed to produce a
timestamp strictly in the future (second conjunct), for any satisfiable
pattern, any wall-clock instant and any starting cursor. -/
theorem requery_loop_terminates (c : CronExpr) (s now cursor : Nat)
    (hs : matchesAt c s = true) :
    (∀ t r, nextT c t = some r → t < r) ∧
    ∃ nr, requery c now cursor (now + 1) = some nr ∧ now < nr := by
  constructor
  · intro t r hr
    obtain ⟨-, h2, -, -⟩ := searchFrom_eq_some c period (t + 1) r hr
    omega
  · exact requery_succeeds c s hs now (now + 1) cursor (by omega) (by omega)

theorem requery_loop_terminates_witness :
    (∀ t r, nextT everyMinute t = some r → t < r) ∧
    ∃ nr, requery everyMinute 5 0 6 = some nr ∧ 5 < nr :=
  requery_loop_terminates everyMinute 0 5 0 (by decide)

/-- C4: an unparseable cron expression terminates the process with a
non-zero exit status at startup: no loop iteration happens and no command
is ever started (the count of started commands is 0 whatever events the
environment would have supplied). -/
theorem invalid_cron_exits_before_loop (s : String) (cfg : RunConfig)
    (events : List IterEvent) (msg : String)
    (h : parseCron s = Except.error msg) :
    ∃ code : Int, code ≠ 0 ∧ program s cfg events = (some code, 0) := by
  exact ⟨1, by decide, by simp [program, h]⟩

theorem invalid_cron_exits_before_loop_witness :
    (∃ code : Int, code ≠ 0 ∧
      program "* * *" { command := ["job"] }
        [IterEvent.run (ExecEvent.completed 0)] = (some code, 0)) ∧
    (∃ code : Int, code ≠ 0 ∧
      program "99 * * * *" { command := ["job"] }
        [IterEvent.run (ExecEvent.completed 0)] = (some code, 0)) :=
  ⟨invalid_cron_exits_before_loop "* * *" { command := ["job"] }
      [IterEvent.run (ExecEvent.completed 0)]
      "expected exactly 5 fields" rfl,
   invalid_cron_exits_before_loop "99 * * * *" { command := ["job"] }
      [IterEvent.run (ExecEvent.completed 0)]
      "invalid minute field" rfl⟩

end Croncycle
